import Mathlib

/-!
Shallow embedding of `src/src/vm/eventpipefile.cpp` (class `EventPipeFile`):
the write side of the EventPipe trace-file writer.  The file under `src/`
defines the orchestration (`WriteEvent`, `WriteToBlock`, `WriteEnd`,
metadata-id registry); its collaborators (`EventPipeBlock`,
`FastSerializer`, `MapSHashWithRemove`, `BuildEventMetadataEvent`) live in
other files of the repository that are not under `src/`, so those are
modelled from the spec, as marked on each definition.

Machine-integer remarks: the metadata-id counter is incremented with
`InterlockedIncrement` (eventpipefile.cpp:188); the declaration of the
counter field is in the header, which is not under `src/`, and the spec
describes it only as an unsigned, per-writer, monotonically increasing
counter, so it is modelled as an unbounded `Nat`.  Undefined behaviour
(dereferencing a null pointer) and the debug-only `_ASSERTE` abort are made
explicit through the `Outcome` type below.
-/

namespace EventPipeModel

/-- An event instance (`EventPipeEventInstance`): a reference to its event
type descriptor (modelled as a stable numeric identity `typeId`, per spec
§9: identity-keyed lookup becomes a stable opaque key), its payload bytes,
its serialized size in a block, and the mutable metadata-id field that the
writer sets immediately before serialization (eventpipefile.cpp:150). -/
structure EventPipeEventInstance where
  typeId : Nat
  payload : List Nat
  size : Nat
  metadataId : Nat
  deriving DecidableEq, Repr

/-- Modelled from the spec: `EventPipeBlock` (eventpipeblock.cpp is not
under `src/`).  Spec §3/§4.4: fixed capacity set at construction; holds a
contiguous run of serialized event records; a record is accepted iff
`cursor + serialized_size(record) <= capacity`; append is all-or-nothing;
`Clear` resets the cursor without releasing storage. -/
structure EventPipeBlock where
  maxBlockSize : Nat
  contents : List EventPipeEventInstance
  deriving DecidableEq, Repr

/-- Occupied bytes of the block (the write cursor). -/
def EventPipeBlock.bytesWritten (b : EventPipeBlock) : Nat :=
  (b.contents.map EventPipeEventInstance.size).sum

/-- Modelled from the spec: `EventPipeBlock::WriteEvent` — accept the
record iff it fits (including an exact fit), all-or-nothing; returns
whether the record was accepted together with the updated block. -/
def EventPipeBlock.writeEvent (b : EventPipeBlock) (inst : EventPipeEventInstance) :
    Bool × EventPipeBlock :=
  if b.bytesWritten + inst.size ≤ b.maxBlockSize then
    (true, { b with contents := b.contents ++ [inst] })
  else
    (false, b)

/-- Modelled from the spec: `EventPipeBlock::Clear` — reset the cursor,
dropping the buffered records. -/
def EventPipeBlock.clear (b : EventPipeBlock) : EventPipeBlock :=
  { b with contents := [] }

/-- An object written to the backing byte stream by the serializer.
`streamHeader` is the header the `FastSerializer` constructor writes
(eventpipefile.cpp:54), `fileHeader` is the `EventPipeFile` object written
first into the stream (eventpipefile.cpp:60), `block` is a flushed
`EventPipeBlock` (its buffered records), and `nullReferenceTag` is the
end-of-stream sentinel (`FastSerializerTags::NullReference`,
eventpipefile.cpp:137). -/
inductive StreamObject where
  | streamHeader
  | fileHeader
  | block (records : List EventPipeEventInstance)
  | nullReferenceTag
  deriving DecidableEq, Repr

/-- Association-list model of `MapSHashWithRemove<EventPipeEvent*, unsigned int>`
(modelled from the spec: the hash map class is not under `src/`); keys are
the stable event-type identities. `lookupId` is `Lookup`. -/
def lookupId : List (Nat × Nat) → Nat → Option Nat
  | [], _ => none
  | (k, v) :: rest, typeId => if k = typeId then some v else lookupId rest typeId

/-- Modelled from the spec: `Remove` drops the entry for the key (at most
one entry per key is ever present). -/
def removeId : List (Nat × Nat) → Nat → List (Nat × Nat)
  | [], _ => []
  | (k, v) :: rest, typeId => if k = typeId then rest else (k, v) :: removeId rest typeId

/-- EventPipeFile::SaveMetadataId (eventpipefile.cpp:211-231), at the map
level: if a pre-existing metadata label exists, remove it, then add the new
label.  The debug-only `PRECONDITION(metadataId > 0)` is a no-op in
non-debug builds and is elided. -/
def saveMetadataId (m : List (Nat × Nat)) (typeId metadataId : Nat) : List (Nat × Nat) :=
  match lookupId m typeId with
  | some _ => (typeId, metadataId) :: removeId m typeId
  | none => (typeId, metadataId) :: m

/-- Body of EventPipeFile::GetMetadataId (eventpipefile.cpp:191-209) at the
map level: return the registered id, or the sentinel 0 when the event type
has no entry.  The debug-only `_ASSERTE(metadataId != 0)` is a no-op in
non-debug builds and is elided. -/
def lookupOrZero (m : List (Nat × Nat)) (typeId : Nat) : Nat :=
  match lookupId m typeId with
  | some metadataId => metadataId
  | none => 0

/-- Modelled from the spec: `EventPipe::GetConfiguration()->BuildEventMetadataEvent`
(eventpipeconfiguration.cpp is not under `src/`).  Spec §2/§4.1: given an
event instance and an assigned id, produce a synthetic instance describing
that type's schema, tagged with the new id.  The schema payload is
abstracted as the pair (type identity, assigned id); its serialized size is
a parameter `metaSize` of the model, as it depends on the type's schema. -/
def buildEventMetadataEvent (metaSize : Nat → Nat) (inst : EventPipeEventInstance)
    (metadataId : Nat) : EventPipeEventInstance :=
  { typeId := inst.typeId
    payload := [inst.typeId, metadataId]
    size := metaSize inst.typeId
    metadataId := metadataId }

/-- Result of an operation of the writer.  `ok` is a normal return;
`nullDeref` is a dereference of a pointer that has been set to `NULL`
(undefined behaviour — there is no check on these paths in the source);
`assertFailed` is a debug-build `_ASSERTE` abort (a no-op in non-debug
builds). -/
inductive Outcome (α : Type) where
  | ok (a : α)
  | nullDeref
  | assertFailed
  deriving DecidableEq, Repr

/-- The writer state (class `EventPipeFile`).  `pBlock` models `m_pBlock`
(`none` = the pointer is `NULL`, as after the destructor runs);
`serializerAlive` models `m_pSerializer != NULL`; `output` is the sequence
of objects the serializer has written to the backing stream (it persists
after the serializer is deleted, being the file contents); `metadataIds`
models `m_pMetadataIds`; `metadataIdCounter` models `m_metadataIdCounter`;
`lockOnWrite` models the debug-only `m_lockOnWrite` flag (spec §9: an
explicit concurrency-mode choice, `true` = multi-writer).  The
environment-derived header fields (times, process id, processor count,
sampling rate, pointer size) are data of external collaborators and are
not modelled. -/
structure EventPipeFile where
  pBlock : Option EventPipeBlock
  serializerAlive : Bool
  output : List StreamObject
  metadataIds : List (Nat × Nat)
  metadataIdCounter : Nat
  lockOnWrite : Bool
  deriving DecidableEq, Repr

/-- EventPipeFile::EventPipeFile (eventpipefile.cpp:14-61): allocate a
100 KiB block, create the serializer (which writes the stream header),
start the id counter at 0 ("the first id will be 1"), and write the file
header object as the first object in the file. -/
def EventPipeFile.init (lockOnWrite : Bool) : EventPipeFile :=
  { pBlock := some { maxBlockSize := 100 * 1024, contents := [] }
    serializerAlive := true
    output := [StreamObject.streamHeader, StreamObject.fileHeader]
    metadataIds := []
    metadataIdCounter := 0
    lockOnWrite := lockOnWrite }

/-- EventPipeFile::GetMetadataId (eventpipefile.cpp:191-209). -/
def EventPipeFile.getMetadataId (f : EventPipeFile) (typeId : Nat) : Nat :=
  lookupOrZero f.metadataIds typeId

/-- EventPipeFile::GenerateMetadataId (eventpipefile.cpp:178-189):
`InterlockedIncrement(&m_metadataIdCounter)` returns the incremented value;
modelled as a pure increment returning the new id and the updated state. -/
def EventPipeFile.generateMetadataId (f : EventPipeFile) : Nat × EventPipeFile :=
  (f.metadataIdCounter + 1, { f with metadataIdCounter := f.metadataIdCounter + 1 })

/-- EventPipeFile::WriteToBlock (eventpipefile.cpp:140-176), with `debug`
selecting the build configuration (`_DEBUG` or not).  Set the instance's
metadata id; try to append it to the current block; on success return.
Otherwise write the (full) block to the serializer as one object, clear
it, and retry the append; `_ASSERTE(result == true)` aborts in a debug
build when the retry fails, and is a no-op otherwise.  The lock taken at
eventpipefile.cpp:163 has no effect on this state function (see
`writeToBlockActions` for its scoping).  Dereferencing `m_pBlock` or
`m_pSerializer` when `NULL` is `nullDeref`. -/
def EventPipeFile.writeToBlock (debug : Bool) (f : EventPipeFile)
    (inst : EventPipeEventInstance) (metadataId : Nat) :
    Outcome (EventPipeFile × EventPipeEventInstance) :=
  let inst1 := { inst with metadataId := metadataId }
  match f.pBlock with
  | none => Outcome.nullDeref
  | some blk =>
    match blk.writeEvent inst1 with
    | (true, blk1) => Outcome.ok ({ f with pBlock := some blk1 }, inst1)
    | (false, _) =>
      if f.serializerAlive then
        let out1 := f.output ++ [StreamObject.block blk.contents]
        let blk2 := blk.clear
        let retried := blk2.writeEvent inst1
        if debug && !retried.fst then
          Outcome.assertFailed
        else
          Outcome.ok ({ f with pBlock := some retried.snd, output := out1 }, inst1)
      else
        Outcome.nullDeref

/-- EventPipeFile::WriteEvent (eventpipefile.cpp:91-119), with `debug`
selecting the build configuration and `metaSize` the serialized size of the
synthetic metadata event per type (see `buildEventMetadataEvent`).  Look up
the type's metadata id; if it is the sentinel 0, generate a fresh id, build
a synthetic metadata instance, push it through the block-write path with
the sentinel id 0 (which breaks recursion), register the new id, release
the synthetic instance (not retained by the model), and finally push the
caller's instance through the block-write path with the resolved id.
Returns the updated state together with the caller's instance as mutated
by `SetMetadataId`. -/
def EventPipeFile.writeEvent (debug : Bool) (metaSize : Nat → Nat) (f : EventPipeFile)
    (inst : EventPipeEventInstance) :
    Outcome (EventPipeFile × EventPipeEventInstance) :=
  let metadataId := f.getMetadataId inst.typeId
  if metadataId = 0 then
    let newId := (f.generateMetadataId).fst
    let f1 := (f.generateMetadataId).snd
    let pMetadataInstance := buildEventMetadataEvent metaSize inst newId
    match f1.writeToBlock debug pMetadataInstance 0 with
    | Outcome.ok (f2, _) =>
      let f3 := { f2 with metadataIds := saveMetadataId f2.metadataIds inst.typeId newId }
      f3.writeToBlock debug inst newId
    | Outcome.nullDeref => Outcome.nullDeref
    | Outcome.assertFailed => Outcome.assertFailed
  else
    f.writeToBlock debug inst metadataId

/-- EventPipeFile::WriteEnd (eventpipefile.cpp:121-138): write the current
block to the serializer whether it is full or not, clear it, then write the
`NullReference` end-of-stream tag. -/
def EventPipeFile.writeEnd (f : EventPipeFile) : Outcome EventPipeFile :=
  if f.serializerAlive then
    match f.pBlock with
    | none => Outcome.nullDeref
    | some blk =>
      let out1 := f.output ++ [StreamObject.block blk.contents]
      let blk1 := blk.clear
      let out2 := out1 ++ [StreamObject.nullReferenceTag]
      Outcome.ok { f with output := out2, pBlock := some blk1 }
  else
    Outcome.nullDeref

/-- EventPipeFile::~EventPipeFile (eventpipefile.cpp:63-89): call
`WriteEnd` only when both `m_pBlock` and `m_pSerializer` are non-null,
then delete both and set them to `NULL`.  When the guard holds `writeEnd`
always returns normally, so the unreachable fallback keeps the state. -/
def EventPipeFile.close (f : EventPipeFile) : EventPipeFile :=
  let f1 :=
    if f.pBlock.isSome && f.serializerAlive then
      match f.writeEnd with
      | Outcome.ok g => g
      | _ => f
    else f
  { f1 with pBlock := none, serializerAlive := false }

/-- The event records contained in the block objects of a stream, in
stream order. -/
def streamRecords : List StreamObject → List EventPipeEventInstance
  | [] => []
  | StreamObject.block records :: rest => records ++ streamRecords rest
  | _ :: rest => streamRecords rest

/-- All records the writer has accepted so far, in order: records already
flushed to the stream followed by the records buffered in the current
block. -/
def EventPipeFile.emitted (f : EventPipeFile) : List EventPipeEventInstance :=
  streamRecords f.output ++
    (match f.pBlock with
     | some b => b.contents
     | none => [])

/-- Driver iterating `WriteEvent` over a sequence of instances from one
writer (the single-writer regime), stopping at the first abnormal
outcome. -/
def writeEvents (debug : Bool) (metaSize : Nat → Nat) (f : EventPipeFile) :
    List EventPipeEventInstance → Outcome EventPipeFile
  | [] => Outcome.ok f
  | inst :: rest =>
    match f.writeEvent debug metaSize inst with
    | Outcome.ok (f1, _) => writeEvents debug metaSize f1 rest
    | Outcome.nullDeref => Outcome.nullDeref
    | Outcome.assertFailed => Outcome.assertFailed

/-- Observable actions of one `WriteToBlock` call, in program order
(eventpipefile.cpp:140-176).  The `SpinLockHolder` at line 163 is declared
inside the braces of the `if (m_lockOnWrite)` statement, so its destructor
releases the lock at the closing brace of that `if` — before the
serializer write, the clear and the retry that follow it. -/
inductive WriterAction where
  | setMetadataId (metadataId : Nat)
  | blockAppend (accepted : Bool)
  | lockAcquire
  | lockRelease
  | serializeBlock
  | blockClear
  deriving DecidableEq, Repr

/-- Action trace of EventPipeFile::WriteToBlock in a debug build with the
given `lockOnWrite` mode, mirroring the source order: set the metadata id,
attempt the append, and if the block was full: the lock is acquired and
immediately released (the holder's scope is the `if` body), then the block
is serialized, cleared, and the append is retried. -/
def writeToBlockActions (lockOnWrite : Bool) (blk : EventPipeBlock)
    (inst : EventPipeEventInstance) (metadataId : Nat) : List WriterAction :=
  let inst1 := { inst with metadataId := metadataId }
  if (blk.writeEvent inst1).fst then
    [WriterAction.setMetadataId metadataId, WriterAction.blockAppend true]
  else
    [WriterAction.setMetadataId metadataId, WriterAction.blockAppend false] ++
      (if lockOnWrite then [WriterAction.lockAcquire, WriterAction.lockRelease] else []) ++
      [WriterAction.serializeBlock, WriterAction.blockClear,
        WriterAction.blockAppend (blk.clear.writeEvent inst1).fst]

/-- The distinct event-type identities of a sequence, in order of first
occurrence, relative to a set of already seen identities. -/
def newTypes (seen : List Nat) : List EventPipeEventInstance → List Nat
  | [] => []
  | inst :: rest =>
    if inst.typeId ∈ seen then newTypes seen rest
    else inst.typeId :: newTypes (inst.typeId :: seen) rest

/-- Causal-ordering property relative to an already emitted prefix `done`:
every record carrying a nonzero metadata id is preceded (in `done`, or
earlier in the list) by a metadata record (metadata id 0) for the same
event type. -/
def precededFrom : List EventPipeEventInstance → List EventPipeEventInstance → Prop
  | _, [] => True
  | done, r :: rest =>
    (r.metadataId ≠ 0 → ∃ r0 ∈ done, r0.metadataId = 0 ∧ r0.typeId = r.typeId) ∧
      precededFrom (done ++ [r]) rest

/-- Causal-ordering property of a stream of records: every event record is
preceded by the metadata record of its event type. -/
def metadataPrecedes (records : List EventPipeEventInstance) : Prop :=
  precededFrom [] records

/-- Reference recursion describing the record sequence, registry and
counter produced by a run of `WriteEvent` calls, abstracting away block
boundaries: an instance of a registered type contributes its tagged record;
an instance of an unregistered type contributes the synthetic metadata
record (tagged with the sentinel 0) followed by its own record tagged with
the fresh id, registering the type. -/
def flatRun (metaSize : Nat → Nat) :
    List (Nat × Nat) → Nat → List EventPipeEventInstance →
    List EventPipeEventInstance × List (Nat × Nat) × Nat
  | m, c, [] => ([], m, c)
  | m, c, inst :: rest =>
    if lookupOrZero m inst.typeId = 0 then
      let out := flatRun metaSize (saveMetadataId m inst.typeId (c + 1)) (c + 1) rest
      ({ buildEventMetadataEvent metaSize inst (c + 1) with metadataId := 0 } ::
        { inst with metadataId := c + 1 } :: out.fst, out.snd)
    else
      let out := flatRun metaSize m c rest
      ({ inst with metadataId := lookupOrZero m inst.typeId } :: out.fst, out.snd)

end EventPipeModel

namespace EventPipeModel

/-! ### Basic lemmas about the stream, the registry and the block path -/

theorem streamRecords_append (a b : List StreamObject) :
    streamRecords (a ++ b) = streamRecords a ++ streamRecords b := by
  induction a with
  | nil => rfl
  | cons x rest ih => cases x <;> simp [streamRecords, ih]

theorem lookupId_removeId_ne (m : List (Nat × Nat)) (t t' : Nat) (h : t' ≠ t) :
    lookupId (removeId m t) t' = lookupId m t' := by
  induction m with
  | nil => rfl
  | cons kv rest ih =>
    obtain ⟨k, v⟩ := kv
    by_cases hk : k = t
    · subst hk
      simp [removeId, lookupId, Ne.symm h]
    · simp only [removeId, if_neg hk, lookupId]
      by_cases hk' : k = t'
      · simp [hk']
      · simp [hk', ih]

theorem lookupId_save_self (m : List (Nat × Nat)) (t id : Nat) :
    lookupId (saveMetadataId m t id) t = some id := by
  unfold saveMetadataId
  cases lookupId m t <;> simp [lookupId]

theorem lookupId_save_ne (m : List (Nat × Nat)) (t id t' : Nat) (h : t' ≠ t) :
    lookupId (saveMetadataId m t id) t' = lookupId m t' := by
  unfold saveMetadataId
  cases h0 : lookupId m t <;>
    simp [lookupId, Ne.symm h, lookupId_removeId_ne m t t' h]

theorem writeToBlock_ok_inst {debug : Bool} {f f' : EventPipeFile}
    {inst inst' : EventPipeEventInstance} {metadataId : Nat}
    (h : f.writeToBlock debug inst metadataId = Outcome.ok (f', inst')) :
    inst' = { inst with metadataId := metadataId } := by
  unfold EventPipeFile.writeToBlock at h
  cases hb : f.pBlock with
  | none => simp [hb] at h
  | some blk =>
    rw [hb] at h
    simp only at h
    rcases hw : blk.writeEvent { inst with metadataId := metadataId } with ⟨ok, blk1⟩
    rw [hw] at h
    cases ok
    · simp only at h
      by_cases hs : f.serializerAlive
      · rw [if_pos hs] at h
        by_cases hd : (debug && !(blk.clear.writeEvent { inst with metadataId := metadataId }).fst) = true
        · simp [hd] at h
        · simp only [Bool.not_eq_true] at hd
          simp [hd] at h
          exact h.2.symm
      · simp [hs] at h
    · simp only at h
      cases h
      rfl

theorem bytesWritten_clear (b : EventPipeBlock) : b.clear.bytesWritten = 0 := rfl

theorem writeToBlock_fits (debug : Bool) {f : EventPipeFile} {blk : EventPipeBlock}
    (hb : f.pBlock = some blk) (hs : f.serializerAlive = true)
    (inst : EventPipeEventInstance) (metadataId : Nat)
    (hsz : inst.size ≤ blk.maxBlockSize) :
    ∃ blk1 out1,
      f.writeToBlock debug inst metadataId =
        Outcome.ok ({ f with pBlock := some blk1, output := out1 },
          { inst with metadataId := metadataId }) ∧
      blk1.maxBlockSize = blk.maxBlockSize ∧
      streamRecords out1 ++ blk1.contents =
        streamRecords f.output ++ blk.contents ++ [{ inst with metadataId := metadataId }] := by
  by_cases hfit : blk.bytesWritten + inst.size ≤ blk.maxBlockSize
  · refine ⟨{ blk with contents := blk.contents ++ [{ inst with metadataId := metadataId }] },
      f.output, ?_, rfl, by simp⟩
    simp [EventPipeFile.writeToBlock, hb, EventPipeBlock.writeEvent, hfit]
  · have hfit' : ¬ (List.map EventPipeEventInstance.size blk.contents).sum + inst.size ≤
        blk.maxBlockSize := hfit
    refine ⟨EventPipeBlock.mk blk.maxBlockSize [{ inst with metadataId := metadataId }],
      f.output ++ [StreamObject.block blk.contents], ?_, rfl, ?_⟩
    · simp [EventPipeFile.writeToBlock, hb, EventPipeBlock.writeEvent, hfit', hs,
        EventPipeBlock.bytesWritten, hsz, EventPipeBlock.clear]
    · simp [streamRecords_append, streamRecords]

theorem writeToBlock_release {f : EventPipeFile} {blk : EventPipeBlock}
    (hb : f.pBlock = some blk) (hs : f.serializerAlive = true)
    (inst : EventPipeEventInstance) (metadataId : Nat) :
    ∃ blk1 out1,
      f.writeToBlock false inst metadataId =
        Outcome.ok ({ f with pBlock := some blk1, output := out1 },
          { inst with metadataId := metadataId }) ∧
      blk1.maxBlockSize = blk.maxBlockSize ∧
      (inst.size ≤ blk.maxBlockSize →
        streamRecords out1 ++ blk1.contents =
          streamRecords f.output ++ blk.contents ++ [{ inst with metadataId := metadataId }]) := by
  by_cases hsz : inst.size ≤ blk.maxBlockSize
  · obtain ⟨blk1, out1, heq, hmax, hrec⟩ :=
      writeToBlock_fits false hb hs inst metadataId hsz
    exact ⟨blk1, out1, heq, hmax, fun _ => hrec⟩
  · have hfit : ¬ blk.bytesWritten + inst.size ≤ blk.maxBlockSize := by
      intro hle
      exact hsz (le_trans (Nat.le_add_left _ _) hle)
    have hfit' : ¬ (List.map EventPipeEventInstance.size blk.contents).sum + inst.size ≤
        blk.maxBlockSize := hfit
    refine ⟨blk.clear, f.output ++ [StreamObject.block blk.contents], ?_, rfl,
      fun h => absurd h hsz⟩
    simp [EventPipeFile.writeToBlock, hb, EventPipeBlock.writeEvent, hfit', hs,
      EventPipeBlock.bytesWritten, hsz, EventPipeBlock.clear]

theorem emitted_mk (pb : EventPipeBlock) (sa : Bool) (out : List StreamObject)
    (m : List (Nat × Nat)) (c : Nat) (lw : Bool) :
    (EventPipeFile.mk (some pb) sa out m c lw).emitted = streamRecords out ++ pb.contents := rfl

theorem emitted_some {f : EventPipeFile} {blk : EventPipeBlock} (hb : f.pBlock = some blk) :
    f.emitted = streamRecords f.output ++ blk.contents := by
  simp [EventPipeFile.emitted, hb]

theorem writeEvent_release (metaSize : Nat → Nat) {f : EventPipeFile} {blk : EventPipeBlock}
    (hb : f.pBlock = some blk) (hs : f.serializerAlive = true) (inst : EventPipeEventInstance) :
    ∃ f1 blk1 inst1,
      f.writeEvent false metaSize inst = Outcome.ok (f1, inst1) ∧
      f1.pBlock = some blk1 ∧
      blk1.maxBlockSize = blk.maxBlockSize ∧
      f1.serializerAlive = true ∧
      f1.metadataIds = (flatRun metaSize f.metadataIds f.metadataIdCounter [inst]).snd.fst ∧
      f1.metadataIdCounter = (flatRun metaSize f.metadataIds f.metadataIdCounter [inst]).snd.snd ∧
      (inst.size ≤ blk.maxBlockSize → metaSize inst.typeId ≤ blk.maxBlockSize →
        f1.emitted = f.emitted ++ (flatRun metaSize f.metadataIds f.metadataIdCounter [inst]).fst) := by
  by_cases hmid : lookupOrZero f.metadataIds inst.typeId = 0
  · have hbG : ((f.generateMetadataId).snd).pBlock = some blk := hb
    have hsG : ((f.generateMetadataId).snd).serializerAlive = true := hs
    obtain ⟨blkA, outA, heqA, hmaxA, hrecA⟩ :=
      writeToBlock_release hbG hsG
        (buildEventMetadataEvent metaSize inst ((f.generateMetadataId).fst)) 0
    have hb3 : (EventPipeFile.mk (some blkA) ((f.generateMetadataId).snd).serializerAlive outA
        (saveMetadataId f.metadataIds inst.typeId ((f.generateMetadataId).fst))
        ((f.generateMetadataId).snd).metadataIdCounter
        ((f.generateMetadataId).snd).lockOnWrite).pBlock = some blkA := rfl
    have hs3 : (EventPipeFile.mk (some blkA) ((f.generateMetadataId).snd).serializerAlive outA
        (saveMetadataId f.metadataIds inst.typeId ((f.generateMetadataId).fst))
        ((f.generateMetadataId).snd).metadataIdCounter
        ((f.generateMetadataId).snd).lockOnWrite).serializerAlive = true := hs
    obtain ⟨blkB, outB, heqB, hmaxB, hrecB⟩ :=
      writeToBlock_release hb3 hs3 inst ((f.generateMetadataId).fst)
    refine ⟨EventPipeFile.mk (some blkB) ((f.generateMetadataId).snd).serializerAlive outB
      (saveMetadataId f.metadataIds inst.typeId ((f.generateMetadataId).fst))
      ((f.generateMetadataId).snd).metadataIdCounter
      ((f.generateMetadataId).snd).lockOnWrite, blkB,
      { inst with metadataId := (f.generateMetadataId).fst },
      ?_, rfl, hmaxB.trans hmaxA, hs, ?_, ?_, ?_⟩
    · simp only [EventPipeFile.writeEvent, EventPipeFile.getMetadataId, hmid, if_pos]
      rw [heqA]
      simp only
      exact heqB
    · simp [flatRun, hmid, EventPipeFile.generateMetadataId]
    · simp [flatRun, hmid, EventPipeFile.generateMetadataId]
    · intro hszE hszM
      rw [emitted_mk]
      rw [hrecB (by rw [hmaxA]; exact hszE)]
      have hA := hrecA (by simpa [buildEventMetadataEvent] using hszM)
      rw [show (EventPipeFile.mk (some blkA)
          ((f.generateMetadataId).snd).serializerAlive outA
          (saveMetadataId f.metadataIds inst.typeId ((f.generateMetadataId).fst))
          ((f.generateMetadataId).snd).metadataIdCounter
          ((f.generateMetadataId).snd).lockOnWrite).output = outA from rfl]
      rw [hA]
      rw [emitted_some hb]
      simp [flatRun, hmid, EventPipeFile.generateMetadataId, buildEventMetadataEvent]
  · obtain ⟨blk1, out1, heq, hmax, hrec⟩ :=
      writeToBlock_release hb hs inst (lookupOrZero f.metadataIds inst.typeId)
    refine ⟨{ f with pBlock := some blk1, output := out1 }, blk1,
      { inst with metadataId := lookupOrZero f.metadataIds inst.typeId },
      ?_, rfl, hmax, hs, ?_, ?_, ?_⟩
    · simp only [EventPipeFile.writeEvent, EventPipeFile.getMetadataId, hmid, if_neg]
      exact heq
    · simp [flatRun, hmid]
    · simp [flatRun, hmid]
    · intro hszE _
      rw [emitted_mk, hrec hszE, emitted_some hb]
      simp [flatRun, hmid]

theorem flatRun_cons (metaSize : Nat → Nat) (m : List (Nat × Nat)) (c : Nat)
    (inst : EventPipeEventInstance) (rest : List EventPipeEventInstance) :
    flatRun metaSize m c (inst :: rest) =
      ((flatRun metaSize m c [inst]).fst ++
        (flatRun metaSize (flatRun metaSize m c [inst]).snd.fst
          (flatRun metaSize m c [inst]).snd.snd rest).fst,
       (flatRun metaSize (flatRun metaSize m c [inst]).snd.fst
          (flatRun metaSize m c [inst]).snd.snd rest).snd) := by
  by_cases hmid : lookupOrZero m inst.typeId = 0 <;> simp [flatRun, hmid]

theorem writeEvents_release {metaSize : Nat → Nat} :
    ∀ (l : List EventPipeEventInstance) (f : EventPipeFile) (blk : EventPipeBlock),
      f.pBlock = some blk → f.serializerAlive = true →
      ∃ f1 blk1,
        writeEvents false metaSize f l = Outcome.ok f1 ∧
        f1.pBlock = some blk1 ∧
        blk1.maxBlockSize = blk.maxBlockSize ∧
        f1.serializerAlive = true ∧
        f1.metadataIds = (flatRun metaSize f.metadataIds f.metadataIdCounter l).snd.fst ∧
        f1.metadataIdCounter = (flatRun metaSize f.metadataIds f.metadataIdCounter l).snd.snd ∧
        ((∀ i ∈ l, i.size ≤ blk.maxBlockSize ∧ metaSize i.typeId ≤ blk.maxBlockSize) →
          f1.emitted = f.emitted ++ (flatRun metaSize f.metadataIds f.metadataIdCounter l).fst) := by
  intro l
  induction l with
  | nil =>
    intro f blk hb hs
    exact ⟨f, blk, rfl, hb, rfl, hs, rfl, rfl, fun _ => by simp [flatRun]⟩
  | cons inst rest ih =>
    intro f blk hb hs
    obtain ⟨fA, blkA, instA, heqA, hbA, hmaxA, hsA, hmapA, hctrA, hemA⟩ :=
      writeEvent_release metaSize hb hs inst
    obtain ⟨f1, blk1, heq1, hb1, hmax1, hs1, hmap1, hctr1, hem1⟩ := ih fA blkA hbA hsA
    have hcomp := flatRun_cons metaSize f.metadataIds f.metadataIdCounter inst rest
    refine ⟨f1, blk1, ?_, hb1, hmax1.trans hmaxA, hs1, ?_, ?_, ?_⟩
    · simp only [writeEvents]
      rw [heqA]
      exact heq1
    · rw [hcomp, hmap1, hmapA, hctrA]
    · rw [hcomp, hctr1, hmapA, hctrA]
    · intro hall
      have hhead := hall inst (List.mem_cons_self inst rest)
      have hrest : ∀ i ∈ rest, i.size ≤ blkA.maxBlockSize ∧
          metaSize i.typeId ≤ blkA.maxBlockSize := by
        intro i hi
        rw [hmaxA]
        exact hall i (List.mem_cons_of_mem inst hi)
      rw [hcomp]
      rw [hem1 hrest, hemA hhead.1 hhead.2, hmapA, hctrA]
      simp

theorem lookupId_of_lookupOrZero_ne {m : List (Nat × Nat)} {t : Nat}
    (h : lookupOrZero m t ≠ 0) : lookupId m t = some (lookupOrZero m t) := by
  unfold lookupOrZero at h ⊢
  cases hl : lookupId m t with
  | none => rw [hl] at h; simp at h
  | some id => rfl

theorem newTypes_congr : ∀ (l : List EventPipeEventInstance) (s1 s2 : List Nat),
    (∀ x, x ∈ s1 ↔ x ∈ s2) → newTypes s1 l = newTypes s2 l
  | [], _, _, _ => rfl
  | inst :: rest, s1, s2, h => by
    by_cases ht : inst.typeId ∈ s1
    · simp only [newTypes, if_pos ht, if_pos ((h _).mp ht)]
      exact newTypes_congr rest s1 s2 h
    · simp only [newTypes, if_neg ht, if_neg (fun c => ht ((h _).mpr c))]
      rw [newTypes_congr rest (inst.typeId :: s1) (inst.typeId :: s2)
        (by intro x; simp [h x])]

theorem flatRun_countP (metaSize : Nat → Nat) :
    ∀ (l : List EventPipeEventInstance) (m : List (Nat × Nat)) (c : Nat) (seen : List Nat),
      (∀ t, (lookupId m t).isSome = true ↔ t ∈ seen) →
      (∀ t id, lookupId m t = some id → id ≠ 0) →
      (flatRun metaSize m c l).fst.countP (fun r => r.metadataId == 0) =
        (newTypes seen l).length
  | [], m, c, seen, h1, h2 => by simp [flatRun, newTypes]
  | inst :: rest, m, c, seen, h1, h2 => by
    by_cases hmid : lookupOrZero m inst.typeId = 0
    · have hnone : lookupId m inst.typeId = none := by
        cases hl : lookupId m inst.typeId with
        | none => rfl
        | some id =>
          exfalso
          apply h2 inst.typeId id hl
          unfold lookupOrZero at hmid
          rw [hl] at hmid
          exact hmid
      have hseen : inst.typeId ∉ seen := by
        intro hcon
        have := (h1 inst.typeId).mpr hcon
        rw [hnone] at this
        simp at this
      have inv1 : ∀ t, (lookupId (saveMetadataId m inst.typeId (c + 1)) t).isSome = true ↔
          t ∈ inst.typeId :: seen := by
        intro t
        by_cases ht : t = inst.typeId
        · subst ht; simp [lookupId_save_self]
        · rw [lookupId_save_ne m inst.typeId (c + 1) t ht]
          simp [h1 t, ht]
      have inv2 : ∀ t id, lookupId (saveMetadataId m inst.typeId (c + 1)) t = some id →
          id ≠ 0 := by
        intro t id hl
        by_cases ht : t = inst.typeId
        · subst ht
          rw [lookupId_save_self] at hl
          cases hl
          exact Nat.succ_ne_zero c
        · rw [lookupId_save_ne m inst.typeId (c + 1) t ht] at hl
          exact h2 t id hl
      have ih := flatRun_countP metaSize rest (saveMetadataId m inst.typeId (c + 1)) (c + 1)
        (inst.typeId :: seen) inv1 inv2
      simp [flatRun, hmid, newTypes, hseen, List.countP_cons, ih]
    · have hsome := lookupId_of_lookupOrZero_ne hmid
      have hseen : inst.typeId ∈ seen := by
        apply (h1 inst.typeId).mp
        rw [hsome]
        rfl
      have ih := flatRun_countP metaSize rest m c seen h1 h2
      simp [flatRun, hmid, newTypes, hseen, List.countP_cons, ih]

theorem flatRun_precededFrom (metaSize : Nat → Nat) :
    ∀ (l : List EventPipeEventInstance) (m : List (Nat × Nat)) (c : Nat)
      (done : List EventPipeEventInstance),
      (∀ t id, lookupId m t = some id →
        ∃ r0 ∈ done, r0.metadataId = 0 ∧ r0.typeId = t) →
      precededFrom done (flatRun metaSize m c l).fst
  | [], m, c, done, hcov => by simp [flatRun, precededFrom]
  | inst :: rest, m, c, done, hcov => by
    by_cases hmid : lookupOrZero m inst.typeId = 0
    · simp only [flatRun, if_pos hmid, precededFrom]
      refine ⟨fun h => absurd rfl h, fun _ => ?_, ?_⟩
      · exact ⟨{ buildEventMetadataEvent metaSize inst (c + 1) with metadataId := 0 },
          by simp, rfl, rfl⟩
      · apply flatRun_precededFrom metaSize rest (saveMetadataId m inst.typeId (c + 1)) (c + 1)
        intro t id hl
        by_cases ht : t = inst.typeId
        · subst ht
          exact ⟨{ buildEventMetadataEvent metaSize inst (c + 1) with metadataId := 0 },
            by simp, rfl, rfl⟩
        · rw [lookupId_save_ne m inst.typeId (c + 1) t ht] at hl
          obtain ⟨r0, hr0, h01, h02⟩ := hcov t id hl
          exact ⟨r0, by simp [hr0], h01, h02⟩
    · simp only [flatRun, if_neg hmid, precededFrom]
      refine ⟨fun _ => ?_, ?_⟩
      · obtain ⟨r0, hr0, h01, h02⟩ :=
          hcov inst.typeId (lookupOrZero m inst.typeId) (lookupId_of_lookupOrZero_ne hmid)
        exact ⟨r0, hr0, h01, h02⟩
      · apply flatRun_precededFrom metaSize rest m c
        intro t id hl
        obtain ⟨r0, hr0, h01, h02⟩ := hcov t id hl
        exact ⟨r0, by simp [hr0], h01, h02⟩

theorem flatRun_ids (metaSize : Nat → Nat) :
    ∀ (l : List EventPipeEventInstance) (m : List (Nat × Nat)) (c : Nat) (o : List Nat),
      c = o.length →
      (∀ k t, o.get? k = some t → lookupId m t = some (k + 1)) →
      (∀ t, (lookupId m t).isSome = true ↔ t ∈ o) →
      (flatRun metaSize m c l).snd.snd = (o ++ newTypes o l).length ∧
      (∀ k t, (o ++ newTypes o l).get? k = some t →
        lookupId (flatRun metaSize m c l).snd.fst t = some (k + 1))
  | [], m, c, o, hc, hids, hmem => by
    constructor
    · simp [flatRun, newTypes, hc]
    · intro k t hkt
      simp only [newTypes, List.append_nil] at hkt
      simpa [flatRun] using hids k t hkt
  | inst :: rest, m, c, o, hc, hids, hmem => by
    by_cases ht : inst.typeId ∈ o
    · have hsome : (lookupId m inst.typeId).isSome = true := (hmem _).mpr ht
      have hmid : lookupOrZero m inst.typeId ≠ 0 := by
        unfold lookupOrZero
        cases hl : lookupId m inst.typeId with
        | none => rw [hl] at hsome; simp at hsome
        | some id =>
          obtain ⟨k, hk⟩ := List.get?_of_mem ht
          have hk1 := hids k inst.typeId hk
          rw [hl] at hk1
          cases hk1
          simp
      have ih := flatRun_ids metaSize rest m c o hc hids hmem
      constructor
      · simpa [flatRun, hmid, newTypes, ht] using ih.1
      · intro k t hkt
        simp only [newTypes, if_pos ht] at hkt
        simpa [flatRun, hmid] using ih.2 k t hkt
    · have hnone : lookupId m inst.typeId = none := by
        cases hl : lookupId m inst.typeId with
        | none => rfl
        | some id =>
          exact absurd ((hmem _).mp (by rw [hl]; rfl)) ht
      have hmid : lookupOrZero m inst.typeId = 0 := by
        unfold lookupOrZero
        rw [hnone]
      have hc1 : c + 1 = (o ++ [inst.typeId]).length := by
        simp [hc]
      have hids1 : ∀ k t, (o ++ [inst.typeId]).get? k = some t →
          lookupId (saveMetadataId m inst.typeId (c + 1)) t = some (k + 1) := by
        intro k t hkt
        rcases Nat.lt_trichotomy k o.length with hlt | heq | hgt
        · rw [List.get?_append hlt] at hkt
          have htm : t ∈ o := List.get?_mem hkt
          have hne : t ≠ inst.typeId := fun e => ht (e ▸ htm)
          rw [lookupId_save_ne m inst.typeId (c + 1) t hne]
          exact hids k t hkt
        · subst heq
          rw [List.get?_concat_length] at hkt
          cases hkt
          rw [lookupId_save_self, hc]
        · rw [List.get?_eq_none.mpr (by simp; omega)] at hkt
          cases hkt
      have hmem1 : ∀ t, (lookupId (saveMetadataId m inst.typeId (c + 1)) t).isSome = true ↔
          t ∈ o ++ [inst.typeId] := by
        intro t
        by_cases he : t = inst.typeId
        · subst he
          simp [lookupId_save_self]
        · rw [lookupId_save_ne m inst.typeId (c + 1) t he]
          simp [hmem t, he]
      have ih := flatRun_ids metaSize rest (saveMetadataId m inst.typeId (c + 1)) (c + 1)
        (o ++ [inst.typeId]) hc1 hids1 hmem1
      have hlist : o ++ newTypes o (inst :: rest) =
          (o ++ [inst.typeId]) ++ newTypes (o ++ [inst.typeId]) rest := by
        simp only [newTypes, if_neg ht]
        rw [newTypes_congr rest (o ++ [inst.typeId]) (inst.typeId :: o)
          (by intro x; simp [or_comm])]
        simp
      constructor
      · rw [hlist]
        simpa [flatRun, hmid] using ih.1
      · intro k t hkt
        rw [hlist] at hkt
        simpa [flatRun, hmid] using ih.2 k t hkt

theorem emitted_init (lw : Bool) : (EventPipeFile.init lw).emitted = [] := rfl

theorem close_output {f : EventPipeFile} {blk : EventPipeBlock}
    (hb : f.pBlock = some blk) (hs : f.serializerAlive = true) :
    (f.close).output = (f.output ++ [StreamObject.block blk.contents]) ++
      [StreamObject.nullReferenceTag] := by
  simp [EventPipeFile.close, EventPipeFile.writeEnd, hb, hs]

theorem streamRecords_close {f : EventPipeFile} {blk : EventPipeBlock}
    (hb : f.pBlock = some blk) (hs : f.serializerAlive = true) :
    streamRecords (f.close).output = f.emitted := by
  rw [close_output hb hs, streamRecords_append, streamRecords_append, emitted_some hb]
  simp [streamRecords]

theorem writeEvent_fits {metaSize : Nat → Nat} {f : EventPipeFile} {blk : EventPipeBlock}
    (debug : Bool) (inst : EventPipeEventInstance)
    (hb : f.pBlock = some blk) (hs : f.serializerAlive = true)
    (hszE : inst.size ≤ blk.maxBlockSize) (hszM : metaSize inst.typeId ≤ blk.maxBlockSize) :
    (f.getMetadataId inst.typeId = 0 →
      ∃ f1, f.writeEvent debug metaSize inst = Outcome.ok
          (f1, { inst with metadataId := f.metadataIdCounter + 1 }) ∧
        f1.emitted = f.emitted ++
          [{ buildEventMetadataEvent metaSize inst (f.metadataIdCounter + 1) with
              metadataId := 0 },
            { inst with metadataId := f.metadataIdCounter + 1 }] ∧
        f1.metadataIds = saveMetadataId f.metadataIds inst.typeId (f.metadataIdCounter + 1) ∧
        f1.metadataIdCounter = f.metadataIdCounter + 1) ∧
    (f.getMetadataId inst.typeId ≠ 0 →
      ∃ f1, f.writeEvent debug metaSize inst = Outcome.ok
          (f1, { inst with metadataId := f.getMetadataId inst.typeId }) ∧
        f1.emitted = f.emitted ++ [{ inst with metadataId := f.getMetadataId inst.typeId }] ∧
        f1.metadataIds = f.metadataIds ∧
        f1.metadataIdCounter = f.metadataIdCounter) := by
  constructor
  · intro hmid
    have hbG : ((f.generateMetadataId).snd).pBlock = some blk := hb
    have hsG : ((f.generateMetadataId).snd).serializerAlive = true := hs
    obtain ⟨blkA, outA, heqA, hmaxA, hrecA⟩ :=
      writeToBlock_fits debug hbG hsG
        (buildEventMetadataEvent metaSize inst ((f.generateMetadataId).fst)) 0
        (by simpa [buildEventMetadataEvent] using hszM)
    have hb3 : (EventPipeFile.mk (some blkA) ((f.generateMetadataId).snd).serializerAlive outA
        (saveMetadataId f.metadataIds inst.typeId ((f.generateMetadataId).fst))
        ((f.generateMetadataId).snd).metadataIdCounter
        ((f.generateMetadataId).snd).lockOnWrite).pBlock = some blkA := rfl
    have hs3 : (EventPipeFile.mk (some blkA) ((f.generateMetadataId).snd).serializerAlive outA
        (saveMetadataId f.metadataIds inst.typeId ((f.generateMetadataId).fst))
        ((f.generateMetadataId).snd).metadataIdCounter
        ((f.generateMetadataId).snd).lockOnWrite).serializerAlive = true := hs
    obtain ⟨blkB, outB, heqB, hmaxB, hrecB⟩ :=
      writeToBlock_fits debug hb3 hs3 inst ((f.generateMetadataId).fst)
        (by rw [hmaxA]; exact hszE)
    refine ⟨EventPipeFile.mk (some blkB) ((f.generateMetadataId).snd).serializerAlive outB
      (saveMetadataId f.metadataIds inst.typeId ((f.generateMetadataId).fst))
      ((f.generateMetadataId).snd).metadataIdCounter
      ((f.generateMetadataId).snd).lockOnWrite, ?_, ?_, rfl, rfl⟩
    · simp only [EventPipeFile.writeEvent, hmid, if_pos]
      rw [heqA]
      simp only
      exact heqB
    · rw [emitted_mk]
      rw [hrecB]
      rw [show (EventPipeFile.mk (some blkA)
          ((f.generateMetadataId).snd).serializerAlive outA
          (saveMetadataId f.metadataIds inst.typeId ((f.generateMetadataId).fst))
          ((f.generateMetadataId).snd).metadataIdCounter
          ((f.generateMetadataId).snd).lockOnWrite).output = outA from rfl]
      rw [hrecA]
      rw [emitted_some hb]
      simp [EventPipeFile.generateMetadataId, buildEventMetadataEvent]
  · intro hmid
    obtain ⟨blk1, out1, heq, hmax, hrec⟩ :=
      writeToBlock_fits debug hb hs inst (f.getMetadataId inst.typeId) hszE
    refine ⟨{ f with pBlock := some blk1, output := out1 }, ?_, ?_, rfl, rfl⟩
    · simp only [EventPipeFile.writeEvent, hmid, if_neg]
      exact heq
    · rw [emitted_mk, hrec, emitted_some hb]

/-! ### Claim theorems -/

/-- C2: a record whose serialized size fits the current block's remaining
free space (including an exact fit) is appended and the call returns
without flushing (the output is unchanged); a record that does not fit
causes the full block to be flushed to the serializer as one object, the
block to be cleared, and the append to be retried into the now-empty
block, and the retry succeeds whenever the record's size is at most the
block capacity. -/
theorem c2_block_write_boundary {f : EventPipeFile} {blk : EventPipeBlock}
    (debug : Bool) (inst : EventPipeEventInstance) (metadataId : Nat)
    (hb : f.pBlock = some blk) (hs : f.serializerAlive = true) :
    (blk.bytesWritten + inst.size ≤ blk.maxBlockSize →
      f.writeToBlock debug inst metadataId = Outcome.ok
        ({ f with pBlock := some { blk with
            contents := blk.contents ++ [{ inst with metadataId := metadataId }] } },
          { inst with metadataId := metadataId })) ∧
    (blk.maxBlockSize < blk.bytesWritten + inst.size → inst.size ≤ blk.maxBlockSize →
      f.writeToBlock debug inst metadataId = Outcome.ok
        ({ f with
            pBlock := some (EventPipeBlock.mk blk.maxBlockSize
              [{ inst with metadataId := metadataId }]),
            output := f.output ++ [StreamObject.block blk.contents] },
          { inst with metadataId := metadataId })) := by
  constructor
  · intro hfit
    simp [EventPipeFile.writeToBlock, hb, EventPipeBlock.writeEvent, hfit]
  · intro hover hsz
    have hfit : ¬ (List.map EventPipeEventInstance.size blk.contents).sum + inst.size ≤
        blk.maxBlockSize := by
      have hlt : blk.maxBlockSize < blk.bytesWritten + inst.size := hover
      unfold EventPipeBlock.bytesWritten at hlt
      omega
    simp [EventPipeFile.writeToBlock, hb, EventPipeBlock.writeEvent, hfit, hs,
      EventPipeBlock.bytesWritten, hsz, EventPipeBlock.clear]

theorem c2_block_write_boundary_witness :
    (EventPipeFile.mk (some (EventPipeBlock.mk 8 [⟨1, [], 5, 1⟩])) true [] [] 0
        false).writeToBlock false ⟨2, [], 3, 0⟩ 9 =
      Outcome.ok (EventPipeFile.mk
        (some (EventPipeBlock.mk 8 [⟨1, [], 5, 1⟩, ⟨2, [], 3, 9⟩])) true [] [] 0 false,
        ⟨2, [], 3, 9⟩) ∧
    (EventPipeFile.mk (some (EventPipeBlock.mk 8 [⟨1, [], 5, 1⟩])) true [] [] 0
        false).writeToBlock false ⟨2, [], 4, 0⟩ 9 =
      Outcome.ok (EventPipeFile.mk (some (EventPipeBlock.mk 8 [⟨2, [], 4, 9⟩]))
        true [StreamObject.block [⟨1, [], 5, 1⟩]] [] 0 false, ⟨2, [], 4, 9⟩) :=
  ⟨(c2_block_write_boundary false ⟨2, [], 3, 0⟩ 9 rfl rfl).1 (by decide),
   (c2_block_write_boundary false ⟨2, [], 4, 0⟩ 9 rfl rfl).2 (by decide) (by decide)⟩

/-- C4 counterexample: the claim states a record exceeding the block
capacity is rejected as fatal in every build configuration; in the
non-debug configuration (`debug = false`, where `_ASSERTE` is a no-op) the
call returns normally with `Outcome.ok` and the set of emitted records is
unchanged — the capacity violation is silently swallowed at this concrete
input (capacity 4, record size 9). -/
theorem c4_capacity_violation_counterexample :
    (EventPipeFile.mk (some (EventPipeBlock.mk 4 [⟨1, [], 3, 7⟩])) true [] [] 0
        false).writeToBlock false ⟨2, [], 9, 0⟩ 1 =
      Outcome.ok (EventPipeFile.mk (some (EventPipeBlock.mk 4 []))
        true [StreamObject.block [⟨1, [], 3, 7⟩]] [] 0 false, ⟨2, [], 9, 1⟩) ∧
    (EventPipeFile.mk (some (EventPipeBlock.mk 4 []))
        true [StreamObject.block [⟨1, [], 3, 7⟩]] [] 0 false).emitted =
      (EventPipeFile.mk (some (EventPipeBlock.mk 4 [⟨1, [], 3, 7⟩])) true [] [] 0
        false).emitted :=
  ⟨rfl, rfl⟩

/-- C4 (amended): a record whose serialized size exceeds the block capacity
is detected and rejected as fatal only in a debug build, where the
`_ASSERTE(result == true)` on the retried append aborts; in a non-debug
build the assertion is a no-op and the record is silently dropped. -/
theorem c4_capacity_violation_debug_only {f : EventPipeFile} {blk : EventPipeBlock}
    (inst : EventPipeEventInstance) (metadataId : Nat)
    (hb : f.pBlock = some blk) (hs : f.serializerAlive = true)
    (hover : blk.maxBlockSize < inst.size) :
    f.writeToBlock true inst metadataId = Outcome.assertFailed := by
  have hfit : ¬ (List.map EventPipeEventInstance.size blk.contents).sum + inst.size ≤
      blk.maxBlockSize := by omega
  have hretry : ¬ inst.size ≤ blk.maxBlockSize := by omega
  simp [EventPipeFile.writeToBlock, hb, EventPipeBlock.writeEvent, hfit, hs,
    EventPipeBlock.bytesWritten, EventPipeBlock.clear, hretry]

theorem c4_capacity_violation_debug_only_witness :
    (EventPipeFile.mk (some (EventPipeBlock.mk 4 [⟨1, [], 3, 7⟩])) true [] [] 0
        false).writeToBlock true ⟨2, [], 9, 0⟩ 1 = Outcome.assertFailed :=
  c4_capacity_violation_debug_only ⟨2, [], 9, 0⟩ 1 rfl rfl (by decide)

/-- C10: when the retried append into the freshly cleared block fails (the
record is larger than the block capacity), `WriteToBlock` in a non-debug
build returns normally: the previously buffered block has been flushed and
the block cleared, the oversized record is in neither the block nor the
output stream, and the overall emitted-record sequence is unchanged — the
record is silently dropped with no error to the caller. -/
theorem c10_release_silent_drop {f : EventPipeFile} {blk : EventPipeBlock}
    (inst : EventPipeEventInstance) (metadataId : Nat)
    (hb : f.pBlock = some blk) (hs : f.serializerAlive = true)
    (hover : blk.maxBlockSize < inst.size) :
    f.writeToBlock false inst metadataId = Outcome.ok
      ({ f with
          pBlock := some blk.clear
          output := f.output ++ [StreamObject.block blk.contents] },
        { inst with metadataId := metadataId }) ∧
    ({ f with
        pBlock := some blk.clear
        output := f.output ++ [StreamObject.block blk.contents] } : EventPipeFile).emitted =
      f.emitted := by
  constructor
  · have hfit : ¬ (List.map EventPipeEventInstance.size blk.contents).sum + inst.size ≤
        blk.maxBlockSize := by omega
    have hretry : ¬ inst.size ≤ blk.maxBlockSize := by omega
    simp [EventPipeFile.writeToBlock, hb, EventPipeBlock.writeEvent, hfit, hs,
      EventPipeBlock.bytesWritten, EventPipeBlock.clear, hretry]
  · show streamRecords (f.output ++ [StreamObject.block blk.contents]) ++
      (blk.clear).contents = f.emitted
    rw [streamRecords_append, emitted_some hb]
    simp [streamRecords, EventPipeBlock.clear]

theorem c10_release_silent_drop_witness :
    (EventPipeFile.mk (some (EventPipeBlock.mk 4 [⟨1, [], 3, 7⟩])) true [] [] 0
        false).writeToBlock false ⟨2, [], 9, 0⟩ 1 =
      Outcome.ok (EventPipeFile.mk (some (EventPipeBlock.mk 4 []))
        true [StreamObject.block [⟨1, [], 3, 7⟩]] [] 0 false, ⟨2, [], 9, 1⟩) :=
  (@c10_release_silent_drop
    (EventPipeFile.mk (some (EventPipeBlock.mk 4 [⟨1, [], 3, 7⟩])) true [] [] 0 false)
    (EventPipeBlock.mk 4 [⟨1, [], 3, 7⟩]) ⟨2, [], 9, 0⟩ 1 rfl rfl (by decide)).1

/-- C8: the claim states the flush-and-rewrite sequence runs while the
serialization lock is held.  In the source the `SpinLockHolder` is declared
inside the braces of the `if (m_lockOnWrite)` statement
(eventpipefile.cpp:157-165), so the holder's destructor releases the lock
at the closing brace — before the serializer write, the clear and the
retry.  At this failing input (multi-writer mode, full block of 8 bytes
with capacity 8, record of size 4) the action trace shows `lockRelease`
strictly before `serializeBlock`, `blockClear` and the retried
`blockAppend`: the critical section is empty and the flush sequence runs
unprotected, contradicting the code's own comment. -/
theorem c8_lock_released_before_flush :
    writeToBlockActions true (EventPipeBlock.mk 8 [⟨1, [], 8, 1⟩]) ⟨2, [], 4, 0⟩ 1 =
      [WriterAction.setMetadataId 1, WriterAction.blockAppend false,
        WriterAction.lockAcquire, WriterAction.lockRelease,
        WriterAction.serializeBlock, WriterAction.blockClear,
        WriterAction.blockAppend true] := by
  decide

/-- C5 counterexample: the claim states that `WriteEvent` after
finalization is deterministically detected and rejected by an explicit
closed-state check (error return or abort).  In the source `WriteEvent`
and `WriteToBlock` contain no such check: after the destructor has run
(`m_pBlock = NULL`), the call dereferences the null block pointer —
`Outcome.nullDeref`, undefined behaviour, not a checked rejection. -/
theorem c5_write_after_close_counterexample :
    ((EventPipeFile.init false).close).writeEvent false (fun _ => 1) ⟨3, [], 2, 0⟩ =
      Outcome.nullDeref := rfl

/-- C5 (amended): a second `Close` is detected by the destructor's
null-pointer guards (eventpipefile.cpp:73) and finalization is skipped, so
`Close` is idempotent and nothing further is written; `WriteEvent` after
finalization, however, is not guarded by any check: it dereferences the
nulled block pointer (undefined behaviour) instead of being rejected by an
explicit closed-state check. -/
theorem c5_close_idempotent_write_unchecked (f : EventPipeFile) (debug : Bool)
    (metaSize : Nat → Nat) (inst : EventPipeEventInstance) :
    f.close.close = f.close ∧
    (f.close).writeEvent debug metaSize inst = Outcome.nullDeref := by
  constructor
  · rfl
  · have hpb : (f.close).pBlock = none := rfl
    have hpbG : (((f.close).generateMetadataId).snd).pBlock = none := rfl
    simp only [EventPipeFile.writeEvent]
    by_cases h : (f.close).getMetadataId inst.typeId = 0
    · simp [h, EventPipeFile.writeToBlock, hpbG]
    · simp [h, EventPipeFile.writeToBlock, hpb]

/-- C6: finalization writes the current block to the serializer exactly
once, even when it is empty, clears it, and then writes exactly one
`NullReference` end-of-stream tag; in particular a writer that is
constructed and immediately closed with zero events produces the stream:
header objects, one empty block, end tag. -/
theorem c6_finalization_stream (lw : Bool) {f : EventPipeFile} {blk : EventPipeBlock}
    (hb : f.pBlock = some blk) (hs : f.serializerAlive = true) :
    f.writeEnd = Outcome.ok { f with
        output := (f.output ++ [StreamObject.block blk.contents]) ++
          [StreamObject.nullReferenceTag]
        pBlock := some blk.clear } ∧
    ((EventPipeFile.init lw).close).output =
      [StreamObject.streamHeader, StreamObject.fileHeader,
        StreamObject.block [], StreamObject.nullReferenceTag] := by
  constructor
  · simp [EventPipeFile.writeEnd, hb, hs]
  · rfl

theorem c6_finalization_stream_witness :
    (EventPipeFile.init true).writeEnd = Outcome.ok { EventPipeFile.init true with
        output := (((EventPipeFile.init true).output) ++
          [StreamObject.block ([] : List EventPipeEventInstance)]) ++
          [StreamObject.nullReferenceTag]
        pBlock := some (EventPipeBlock.mk (100 * 1024) []).clear } ∧
    ((EventPipeFile.init false).close).output =
      [StreamObject.streamHeader, StreamObject.fileHeader,
        StreamObject.block [], StreamObject.nullReferenceTag] :=
  @c6_finalization_stream false (EventPipeFile.init true)
    (EventPipeBlock.mk (100 * 1024) []) rfl rfl

/-- The metadata id WriteEvent resolves for an instance: the freshly
generated counter value when the type has no registry entry, the
pre-existing id otherwise (eventpipefile.cpp:103-106). -/
def resolvedMetadataId (f : EventPipeFile) (inst : EventPipeEventInstance) : Nat :=
  if f.getMetadataId inst.typeId = 0 then f.metadataIdCounter + 1
  else f.getMetadataId inst.typeId

/-- C9: whenever `WriteEvent` returns normally, the caller's instance has
been mutated only in its metadata-id field, which now holds the resolved
id; the type reference, payload and size are unchanged. -/
theorem c9_frame_only_metadataId {debug : Bool} {metaSize : Nat → Nat}
    {f f1 : EventPipeFile} {inst inst1 : EventPipeEventInstance}
    (h : f.writeEvent debug metaSize inst = Outcome.ok (f1, inst1)) :
    inst1 = { inst with metadataId := resolvedMetadataId f inst } := by
  simp only [EventPipeFile.writeEvent] at h
  by_cases hmid : f.getMetadataId inst.typeId = 0
  · rw [if_pos hmid] at h
    unfold resolvedMetadataId
    rw [if_pos hmid]
    cases hA : ((f.generateMetadataId).snd).writeToBlock debug
        (buildEventMetadataEvent metaSize inst ((f.generateMetadataId).fst)) 0 with
    | ok p =>
      rw [hA] at h
      obtain ⟨f2, i2⟩ := p
      simp only at h
      exact writeToBlock_ok_inst h
    | nullDeref =>
      rw [hA] at h
      simp at h
    | assertFailed =>
      rw [hA] at h
      simp at h
  · rw [if_neg hmid] at h
    unfold resolvedMetadataId
    rw [if_neg hmid]
    exact writeToBlock_ok_inst h

theorem c9_frame_only_metadataId_witness :
    (⟨5, [], 10, 1⟩ : EventPipeEventInstance) =
      { (⟨5, [], 10, 0⟩ : EventPipeEventInstance) with
        metadataId := resolvedMetadataId (EventPipeFile.init false) ⟨5, [], 10, 0⟩ } :=
  @c9_frame_only_metadataId false (fun _ => 3) (EventPipeFile.init false)
    (EventPipeFile.mk
      (some (EventPipeBlock.mk (100 * 1024) [⟨5, [5, 1], 3, 0⟩, ⟨5, [], 10, 1⟩]))
      true [StreamObject.streamHeader, StreamObject.fileHeader] [(5, 1)] 1 false)
    ⟨5, [], 10, 0⟩ ⟨5, [], 10, 1⟩ rfl

/-- C3: for a `WriteEvent` call whose event type has no registry entry
(lookup yields the sentinel 0), a fresh id is taken from the counter, a
synthetic metadata instance for the type is built and pushed through the
block-write path tagged with the sentinel id 0, the mapping
(type → new id) is registered, and finally the caller's instance is tagged
with the new id and pushed through the block-write path — so exactly the
metadata record (id 0) followed by the event record is emitted, the
registry gains the new entry and the counter advances; for a type that
already has an entry only the last step happens, with the pre-existing id,
leaving registry and counter unchanged. -/
theorem c3_writeEvent_metadata_protocol {metaSize : Nat → Nat} {f : EventPipeFile}
    {blk : EventPipeBlock} (debug : Bool) (inst : EventPipeEventInstance)
    (hb : f.pBlock = some blk) (hs : f.serializerAlive = true)
    (hszE : inst.size ≤ blk.maxBlockSize) (hszM : metaSize inst.typeId ≤ blk.maxBlockSize) :
    (f.getMetadataId inst.typeId = 0 →
      ∃ f1, f.writeEvent debug metaSize inst = Outcome.ok
          (f1, { inst with metadataId := f.metadataIdCounter + 1 }) ∧
        f1.emitted = f.emitted ++
          [{ buildEventMetadataEvent metaSize inst (f.metadataIdCounter + 1) with
              metadataId := 0 },
            { inst with metadataId := f.metadataIdCounter + 1 }] ∧
        f1.metadataIds = saveMetadataId f.metadataIds inst.typeId (f.metadataIdCounter + 1) ∧
        f1.metadataIdCounter = f.metadataIdCounter + 1) ∧
    (f.getMetadataId inst.typeId ≠ 0 →
      ∃ f1, f.writeEvent debug metaSize inst = Outcome.ok
          (f1, { inst with metadataId := f.getMetadataId inst.typeId }) ∧
        f1.emitted = f.emitted ++ [{ inst with metadataId := f.getMetadataId inst.typeId }] ∧
        f1.metadataIds = f.metadataIds ∧
        f1.metadataIdCounter = f.metadataIdCounter) :=
  writeEvent_fits debug inst hb hs hszE hszM

theorem c3_writeEvent_metadata_protocol_witness :
    ∃ f1, (EventPipeFile.init false).writeEvent false (fun _ => 3) ⟨5, [], 10, 0⟩ =
        Outcome.ok (f1, ⟨5, [], 10, 1⟩) ∧
      f1.emitted = [⟨5, [5, 1], 3, 0⟩, ⟨5, [], 10, 1⟩] ∧
      f1.metadataIds = [(5, 1)] ∧
      f1.metadataIdCounter = 1 :=
  (c3_writeEvent_metadata_protocol false ⟨5, [], 10, 0⟩ rfl rfl
    (by decide) (by decide)).1 rfl

/-- C7: metadata-id allocation is 1-indexed and monotonic per writer:
`GenerateMetadataId` on a fresh writer returns 1, and after any
single-writer run the counter equals the number K of distinct event types
seen, with the k-th distinct type (0-indexed, in order of first
occurrence) registered under metadata id k + 1 — that is, the n-th
distinct type receives id n. -/
theorem c7_metadataId_allocation (metaSize : Nat → Nat) (lw : Bool)
    (l : List EventPipeEventInstance) :
    ((EventPipeFile.init lw).generateMetadataId).fst = 1 ∧
    ∃ f1, writeEvents false metaSize (EventPipeFile.init false) l = Outcome.ok f1 ∧
      f1.metadataIdCounter = (newTypes [] l).length ∧
      (∀ k t, (newTypes [] l).get? k = some t →
        lookupId f1.metadataIds t = some (k + 1)) := by
  refine ⟨rfl, ?_⟩
  obtain ⟨f1, blk1, heq, hb1, hmax1, hs1, hmap1, hctr1, hem1⟩ :=
    writeEvents_release l (EventPipeFile.init false) (EventPipeBlock.mk (100 * 1024) []) rfl rfl
  have hids := flatRun_ids metaSize l [] 0 [] rfl
    (by intro k t h; simp [List.get?] at h)
    (by intro t; simp [lookupId])
  have hm0 : (EventPipeFile.init false).metadataIds = [] := rfl
  have hc0 : (EventPipeFile.init false).metadataIdCounter = 0 := rfl
  rw [hm0, hc0] at hmap1 hctr1
  refine ⟨f1, heq, ?_, ?_⟩
  · rw [hctr1, hids.1]
    simp
  · intro k t hkt
    rw [hmap1]
    exact hids.2 k t (by simpa using hkt)

theorem c7_metadataId_allocation_witness :
    ((EventPipeFile.init false).generateMetadataId).fst = 1 ∧
    ∃ f1, writeEvents false (fun _ => 3) (EventPipeFile.init false)
        [⟨5, [], 10, 0⟩, ⟨7, [], 20, 0⟩, ⟨5, [], 10, 0⟩] = Outcome.ok f1 ∧
      f1.metadataIdCounter =
        (newTypes [] [⟨5, [], 10, 0⟩, ⟨7, [], 20, 0⟩, ⟨5, [], 10, 0⟩]).length ∧
      (∀ k t, (newTypes [] [⟨5, [], 10, 0⟩, ⟨7, [], 20, 0⟩, ⟨5, [], 10, 0⟩]).get? k =
          some t → lookupId f1.metadataIds t = some (k + 1)) :=
  c7_metadataId_allocation (fun _ => 3) false
    [⟨5, [], 10, 0⟩, ⟨7, [], 20, 0⟩, ⟨5, [], 10, 0⟩]

/-- C1: for every sequence of events written through `WriteEvent` from a
fresh writer in single-writer non-debug mode, each record and each
synthetic metadata record fitting the 100 KiB block capacity, followed by
finalization: the concatenated record stream of the emitted block objects
contains exactly K metadata records (records carrying metadata id 0),
where K is the number of distinct event types in the sequence, and every
record carrying a nonzero metadata id is preceded in stream order by a
metadata record of its own event type. -/
theorem c1_metadata_causality (metaSize : Nat → Nat) (l : List EventPipeEventInstance)
    (hsz : ∀ i ∈ l, i.size ≤ 100 * 1024 ∧ metaSize i.typeId ≤ 100 * 1024) :
    ∃ f1, writeEvents false metaSize (EventPipeFile.init false) l = Outcome.ok f1 ∧
      (streamRecords (f1.close).output).countP (fun r => r.metadataId == 0) =
        (newTypes [] l).length ∧
      metadataPrecedes (streamRecords (f1.close).output) := by
  obtain ⟨f1, blk1, heq, hb1, hmax1, hs1, hmap1, hctr1, hem1⟩ :=
    writeEvents_release l (EventPipeFile.init false) (EventPipeBlock.mk (100 * 1024) []) rfl rfl
  have hem := hem1 hsz
  rw [emitted_init] at hem
  have hm0 : (EventPipeFile.init false).metadataIds = [] := rfl
  have hc0 : (EventPipeFile.init false).metadataIdCounter = 0 := rfl
  rw [hm0, hc0] at hem
  refine ⟨f1, heq, ?_, ?_⟩
  · rw [streamRecords_close hb1 hs1, hem]
    simp only [List.nil_append]
    exact flatRun_countP metaSize l [] 0 []
      (by intro t; simp [lookupId])
      (by intro t id h; simp [lookupId] at h)
  · rw [streamRecords_close hb1 hs1, hem]
    simp only [List.nil_append]
    exact flatRun_precededFrom metaSize l [] 0 []
      (by intro t id h; simp [lookupId] at h)

theorem c1_metadata_causality_witness :
    ∃ f1, writeEvents false (fun _ => 3) (EventPipeFile.init false)
        [⟨5, [], 10, 0⟩, ⟨7, [], 20, 0⟩, ⟨5, [], 10, 0⟩] = Outcome.ok f1 ∧
      (streamRecords (f1.close).output).countP (fun r => r.metadataId == 0) =
        (newTypes [] [⟨5, [], 10, 0⟩, ⟨7, [], 20, 0⟩, ⟨5, [], 10, 0⟩]).length ∧
      metadataPrecedes (streamRecords (f1.close).output) :=
  c1_metadata_causality (fun _ => 3)
    [⟨5, [], 10, 0⟩, ⟨7, [], 20, 0⟩, ⟨5, [], 10, 0⟩] (by decide)

theorem c5_close_idempotent_write_unchecked_witness :
    (EventPipeFile.init false).close.close = (EventPipeFile.init false).close ∧
    ((EventPipeFile.init false).close).writeEvent true (fun _ => 2) ⟨4, [], 1, 0⟩ =
      Outcome.nullDeref :=
  c5_close_idempotent_write_unchecked (EventPipeFile.init false) true (fun _ => 2)
    ⟨4, [], 1, 0⟩

end EventPipeModel
